import Mathlib

/-!
Verification of the abc-llvm front end against its specification.

The development contains two shallow embeddings, matching the two
generations of the source tree:

* namespace `Abc` — the newer sources (`src/type/type.cpp`,
  `src/type/functiontype.cpp`, `src/expr/promotion.cpp`): the interned
  type directory and the promotion engine.
* namespace `AbcOld` — the older sources (`src/src/type.cpp`,
  `src/src/binaryexpr.cpp`, `src/src/castexpr.cpp`,
  `src/src/proxyexpr.cpp`): struct completion, expression queries and
  code generation.

Machine pointers to interned types are modelled as the structural values
they intern; global registries become explicit state where a claim needs
them.
-/

namespace Abc

/-- Types of the abc type system, mirroring the class hierarchy rooted at
`Type` in src/type/type.cpp (subclasses VoidType, IntegerType, FloatType,
PointerType/NullptrType, ArrayType, FunctionType, StructType).  Each
carries the base-class `isConst` flag.  Modelled from the spec: the
ArrayType subclass is not among the sources; per spec §3.3 invariant 2 and
§9 note 3 an array stores no const flag of its own — it is const iff its
element is.  Type aliases delegate every query to their target
(src/type/type.cpp lines 292-503) and are omitted: they are observationally
the aliased type for everything below. -/
inductive Ty where
  | void (isConst : Bool)
  | integer (numBits : Nat) (signed : Bool) (isConst : Bool)
  | float (isDouble : Bool) (isConst : Bool)
  | pointer (ref : Ty) (isConst : Bool)
  | nullptrTy (isConst : Bool)
  | array (ref : Ty) (dim : Nat)
  | function (ret : Ty) (params : List Ty) (varg : Bool) (isConst : Bool)
  | struct (id : Nat) (isConst : Bool)

/-- `Type::hasConstFlag` (src/type/type.cpp lines 225-229); for arrays the
flag lives on the element (spec §3.3 invariant 2). -/
def Ty.hasConstFlag : Ty → Bool
  | .void c => c
  | .integer _ _ c => c
  | .float _ c => c
  | .pointer _ c => c
  | .nullptrTy c => c
  | .array r _ => r.hasConstFlag
  | .function _ _ _ c => c
  | .struct _ c => c

/-- `Type::isVoid` — true exactly on the void type. -/
def Ty.isVoid : Ty → Bool
  | .void _ => true
  | _ => false

/-- `Type::isInteger`. -/
def Ty.isInteger : Ty → Bool
  | .integer _ _ _ => true
  | _ => false

/-- `Type::isSignedInteger`. -/
def Ty.isSignedInteger : Ty → Bool
  | .integer _ s _ => s
  | _ => false

/-- `Type::isUnsignedInteger`. -/
def Ty.isUnsignedInteger : Ty → Bool
  | .integer _ s _ => !s
  | _ => false

/-- `Type::numBits` (0 on non-integers, the base-class default). -/
def Ty.numBits : Ty → Nat
  | .integer b _ _ => b
  | _ => 0

/-- Modelled from the spec: IntegerType::isBool is not among the sources;
spec §3.3 says `bits=1` is "bool". -/
def Ty.isBool : Ty → Bool
  | .integer 1 _ _ => true
  | _ => false

/-- `Type::isFloatType`. -/
def Ty.isFloatType : Ty → Bool
  | .float _ _ => true
  | _ => false

/-- `Type::isFloat` — single precision. -/
def Ty.isFloat : Ty → Bool
  | .float d _ => !d
  | _ => false

/-- `Type::isDouble`. -/
def Ty.isDouble : Ty → Bool
  | .float d _ => d
  | _ => false

/-- `Type::isPointer`; the null-pointer type is a pointer type. -/
def Ty.isPointer : Ty → Bool
  | .pointer _ _ => true
  | .nullptrTy _ => true
  | _ => false

/-- `Type::isNullptr`. -/
def Ty.isNullptr : Ty → Bool
  | .nullptrTy _ => true
  | _ => false

/-- `Type::isArray`. -/
def Ty.isArray : Ty → Bool
  | .array _ _ => true
  | _ => false

/-- `Type::dim` (0 default). -/
def Ty.dim : Ty → Nat
  | .array _ d => d
  | _ => 0

/-- `Type::isUnboundArray` (src/type/type.cpp lines 379-386). -/
def Ty.isUnboundArray (t : Ty) : Bool :=
  t.isArray && t.dim == 0

/-- `Type::refType`; `nullptr` (here `none`) on types without a referenced
type, including the null-pointer type. -/
def Ty.refType : Ty → Option Ty
  | .pointer r _ => some r
  | .array r _ => some r
  | _ => none

/-- `Type::isFunction`. -/
def Ty.isFunction : Ty → Bool
  | .function _ _ _ _ => true
  | _ => false

/-- `Type::retType` (`nullptr` default). -/
def Ty.retType : Ty → Option Ty
  | .function r _ _ _ => some r
  | _ => none

/-- `Type::hasVarg` (false default). -/
def Ty.hasVarg : Ty → Bool
  | .function _ _ v _ => v
  | _ => false

/-- `Type::paramType` (empty default). -/
def Ty.paramType : Ty → List Ty
  | .function _ ps _ _ => ps
  | _ => []

/-- `Type::isStruct`. -/
def Ty.isStruct : Ty → Bool
  | .struct _ _ => true
  | _ => false

/-- `Type::id` (0 default; the struct id keys struct identity). -/
def Ty.id : Ty → Nat
  | .struct i _ => i
  | _ => 0

/-- `getConstRemoved`, per subclass.  `FunctionType::getConstRemoved` is
src/type/functiontype.cpp lines 73-78 (same components, const flag
cleared).  Modelled from the spec for the subclasses whose sources are
absent (IntegerType, PointerType, StructType, ...): the flag is stored
independently on each of them (spec §3.3 invariant 2), and on an array it
is removed from the element (spec §9 note 3). -/
def Ty.getConstRemoved : Ty → Ty
  | .void _ => .void false
  | .integer b s _ => .integer b s false
  | .float d _ => .float d false
  | .pointer r _ => .pointer r false
  | .nullptrTy _ => .nullptrTy false
  | .array r d => .array r.getConstRemoved d
  | .function r ps v _ => .function r ps v false
  | .struct i _ => .struct i false

mutual

/-- `Type::equals` (src/type/type.cpp lines 19-64): first the const flags
must agree, then both types must be of the same kind with recursively
equal payloads.  Function types compare return type, varg flag and
parameter lists. -/
def equals : Ty → Ty → Bool
  | t1, t2 =>
    if t1.hasConstFlag != t2.hasConstFlag then
      false
    else
      match t1, t2 with
      | .void _, .void _ => true
      | .integer b1 s1 _, .integer b2 s2 _ => s1 == s2 && b1 == b2
      | .float d1 _, .float d2 _ => (!d1 && !d2) || (d1 && d2)
      | .nullptrTy _, .nullptrTy _ => true
      | .nullptrTy _, .pointer _ _ => false
      | .pointer _ _, .nullptrTy _ => false
      | .pointer r1 _, .pointer r2 _ => equals r1 r2
      | .struct i1 _, .struct i2 _ => i1 == i2
      | .array r1 d1, .array r2 d2 => d1 == d2 && equals r1 r2
      | .function ret1 ps1 v1 _, .function ret2 ps2 v2 _ =>
        equals ret1 ret2 && v1 == v2 && equalsList ps1 ps2
      | _, _ => false

/-- Element-wise equality of parameter lists (the size check plus loop of
src/type/type.cpp lines 51-61). -/
def equalsList : List Ty → List Ty → Bool
  | [], [] => true
  | x :: xs, y :: ys => equals x y && equalsList xs ys
  | _, _ => false

end

/-- `Type::common` (src/type/type.cpp lines 66-103).  NOTE the final step
of the source (lines 99-101) reads

    if (common && (ty1->hasConstFlag() || ty2->hasConstFlag())) {
        common->getConst();
    }

`getConst()` is a const member returning the const flavour; its result is
discarded, so the returned type is `common` itself, unchanged.  The model
reproduces that behaviour. -/
def Ty.common (a b : Ty) : Option Ty :=
  -- lines 72-75: if types are integer and floating point, swap so the
  -- float type is in ty1
  let p := if a.isInteger && b.isFloatType then (b, a) else (a, b)
  let ty1 := p.1
  let ty2 := p.2
  if equals ty1.getConstRemoved ty2.getConstRemoved then
    some ty1
  else if ty1.isArray && ty2.isArray then
    -- both arrays, but reference type or dimension differ
    match ty1.refType, ty2.refType with
    | some r1, some r2 =>
      if equals r1 r2 then some (.pointer r1 false) else none
    | _, _ => none
  else if ty1.isFloatType && ty2.isInteger then
    some ty1
  else if ty1.isInteger && ty2.isInteger then
    let size := max ty1.numBits ty2.numBits
    if ty1.isUnsignedInteger || ty2.isUnsignedInteger then
      some (.integer size false false)
    else
      some (.integer size true false)
  else if ty1.isPointer && ty2.isNullptr then
    some ty1
  else if ty1.isNullptr && ty2.isPointer then
    some ty2
  else
    none

/-- Structural depth, the termination measure for `convert` below. -/
def Ty.depth : Ty → Nat
  | .pointer r _ => r.depth + 1
  | .array r _ => r.depth + 1
  | .function r _ _ _ => r.depth + 1
  | _ => 0

/-- `getConstRemoved` only toggles const flags and preserves depth. -/
theorem depth_getConstRemoved : ∀ t : Ty, t.getConstRemoved.depth = t.depth
  | .void _ => rfl
  | .integer _ _ _ => rfl
  | .float _ _ => rfl
  | .pointer _ _ => rfl
  | .nullptrTy _ => rfl
  | .array r _ => by simp [Ty.getConstRemoved, Ty.depth, depth_getConstRemoved r]
  | .function _ _ _ _ => rfl
  | .struct _ _ => rfl

/-- A referenced type is structurally shallower than its pointer/array. -/
theorem refType_depth : ∀ {t r : Ty}, t.refType = some r → r.depth < t.depth := by
  intro t r h
  cases t <;> simp [Ty.refType] at h <;> subst h <;> simp [Ty.depth]

/-- The static helper `convert(from, to, checkConst)` (src/type/type.cpp
lines 115-192).  The source reassigns `from`/`to` to their const-removed
flavours at lines 121-122; here the const-removed values are written out
at each use.  The `assert(!to->isNullptr())` statements are runtime
checks without effect on the returned value and are not modelled. -/
def convert (src dst : Ty) (checkConst : Bool) : Option Ty :=
  if checkConst && src.hasConstFlag && !dst.hasConstFlag then
    none
  else if equals src.getConstRemoved dst.getConstRemoved then
    some dst.getConstRemoved
  else if dst.getConstRemoved.isBool then
    if src.getConstRemoved.isInteger then some dst.getConstRemoved
    else if src.getConstRemoved.isPointer then some dst.getConstRemoved
    else none
  else if dst.getConstRemoved.isFloatType then
    if src.getConstRemoved.isInteger || src.getConstRemoved.isFloatType then
      some dst.getConstRemoved
    else none
  else if dst.getConstRemoved.isInteger then
    if src.getConstRemoved.isInteger || src.getConstRemoved.isFloatType then
      some dst.getConstRemoved
    else none
  else if dst.getConstRemoved.isPointer && src.getConstRemoved.isArray then
    if src.getConstRemoved.isNullptr then some dst.getConstRemoved
    else
      match hf : src.getConstRemoved.refType, ht : dst.getConstRemoved.refType with
      | some fr, some tr =>
        if (convert fr tr true).isSome then some dst.getConstRemoved else none
      | _, _ => none
  else if dst.getConstRemoved.isPointer && src.getConstRemoved.isPointer then
    if src.getConstRemoved.isNullptr then some dst.getConstRemoved
    else
      match hf : src.getConstRemoved.refType, ht : dst.getConstRemoved.refType with
      | some fr, some tr =>
        if fr.isVoid || tr.isVoid then some dst.getConstRemoved
        else if (convert fr tr true).isSome then
          if equals fr.getConstRemoved tr.getConstRemoved then
            some dst.getConstRemoved
          else none
        else none
      | _, _ => none
  else if src.getConstRemoved.isStruct && dst.getConstRemoved.isStruct then
    if equals src.getConstRemoved dst.getConstRemoved then
      some dst.getConstRemoved
    else none
  else if dst.getConstRemoved.isArray && src.getConstRemoved.isArray then
    if dst.getConstRemoved.dim != src.getConstRemoved.dim
        && !dst.getConstRemoved.isUnboundArray then
      none
    else
      match hf : src.getConstRemoved.refType, ht : dst.getConstRemoved.refType with
      | some fr, some tr =>
        if (convert fr tr checkConst).isSome then some dst.getConstRemoved else none
      | _, _ => none
  else
    none
termination_by src.depth + dst.depth
decreasing_by
  all_goals
    have h1 : fr.depth < src.getConstRemoved.depth := refType_depth hf
    have h2 : tr.depth < dst.getConstRemoved.depth := refType_depth ht
    rw [depth_getConstRemoved] at h1
    rw [depth_getConstRemoved] at h2
    omega

/-- `Type::convert(from, to)` (src/type/type.cpp lines 194-198): the
implicit-cast legality check, with `checkConst = false`. -/
def Ty.convert (src dst : Ty) : Option Ty :=
  Abc.convert src dst false

/-- `BinaryExpr::Kind` (src/expr/binaryexpr.hpp lines 14-35), together
with `INDEX`, which src/expr/promotion.cpp references from a second,
richer enumeration variant (spec §9 note 1). -/
inductive BinaryKind where
  | ASSIGN | ADD_ASSIGN | SUB_ASSIGN | MUL_ASSIGN | DIV_ASSIGN | MOD_ASSIGN
  | ADD | EQUAL | NOT_EQUAL | GREATER | GREATER_EQUAL | LESS | LESS_EQUAL
  | LOGICAL_AND | LOGICAL_OR | SUB | MUL | DIV | MOD | INDEX
deriving DecidableEq

/-- `UnaryExpr::Kind` as used by src/expr/promotion.cpp lines 376-428
(matching spec §3.5). -/
inductive UnaryKind where
  | ADDRESS | ASTERISK_DEREF | ARROW_DEREF
  | PREFIX_INC | POSTFIX_INC | PREFIX_DEC | POSTFIX_DEC
  | LOGICAL_NOT | MINUS
deriving DecidableEq

/-- The view of an expression that the promotion rules consult: its type
and the `isLValue()` / `hasAddress()` answers.  promotion.cpp inspects
nothing else of its operands (locations are used for diagnostics only). -/
structure PExpr where
  type : Ty
  lval : Bool
  addr : Bool

/-- Modelled from the spec: `ImplicitCast::create` (implicitcast.cpp is
not among the sources) wraps its operand in a cast node of the requested
type; per spec §3.4/§4.3 a cast node is neither an lvalue nor
addressable. -/
def implicitCast (e : PExpr) (t : Ty) : PExpr :=
  { e with type := t, lval := false, addr := false }

/-- Modelled from the spec: `IntegerType::createBool`
(integertype.cpp is not among the sources); spec §3.3: bool is the
1-bit integer type, unsigned as in the older sources. -/
def createBool : Ty := .integer 1 false false

/-- `binaryInt` (src/expr/promotion.cpp lines 108-170): promotion of a
binary operator over two integer operands.  A `none` result models the
`binaryErr` path (null result type); diagnostics are not modelled. -/
def binaryInt (kind : BinaryKind) (left right : PExpr) :
    Option (PExpr × PExpr × Ty) :=
  let commonType := Ty.common left.type right.type
  let types : Option Ty × Option Ty × Option Ty :=
    match kind with
    | .ASSIGN | .ADD_ASSIGN | .SUB_ASSIGN | .MUL_ASSIGN | .DIV_ASSIGN
    | .MOD_ASSIGN =>
      if left.type.hasConstFlag then (none, none, none)
      else if !left.lval then (none, none, none)
      else (some left.type, some left.type, some left.type)
    | .ADD | .SUB | .MUL | .DIV | .MOD =>
      (commonType, commonType, commonType)
    | .EQUAL | .NOT_EQUAL | .GREATER | .GREATER_EQUAL | .LESS | .LESS_EQUAL =>
      (some createBool, commonType, commonType)
    | .LOGICAL_AND | .LOGICAL_OR =>
      (some createBool, some createBool, some createBool)
    | _ => (none, none, none)
  match types with
  | (some type, some nl, some nr) =>
    some (implicitCast left nl, implicitCast right nr, type)
  | _ => none

/-- `promotion::unary` (src/expr/promotion.cpp lines 371-435).  The
increment cases check the const flag and then fall through into the
decrement body, which checks it again; the net effect is collapsed here.
`none` models the `unaryErr` path. -/
def unary (kind : UnaryKind) (child : PExpr) : Option (PExpr × Ty) :=
  let types : Option Ty × Option Ty :=
    match kind with
    | .ADDRESS =>
      if child.addr then (some (.pointer child.type false), some child.type)
      else (none, none)
    | .ASTERISK_DEREF | .ARROW_DEREF =>
      if child.type.isPointer && !child.type.isNullptr then
        (child.type.refType, some child.type)
      else (none, none)
    | .PREFIX_INC | .POSTFIX_INC | .PREFIX_DEC | .POSTFIX_DEC =>
      if child.type.hasConstFlag then (none, none)
      else if child.lval && (child.type.isInteger || child.type.isPointer) then
        (some child.type, some child.type)
      else (none, none)
    | .LOGICAL_NOT =>
      if child.type.isInteger then (some child.type, some child.type)
      else if child.type.isPointer then (some createBool, some child.type)
      else (none, none)
    | .MINUS =>
      if child.type.isInteger then (some child.type, some child.type)
      else (none, none)
  match types with
  | (some t, some nct) => some (implicitCast child nct, t)
  | _ => none

/-- Outcome of `promotion::call`: `fatal` models the `error::fatal()`
exit (src/lexer/error.cpp lines 22-26 — `std::exit(1)`); `ok` carries the
(possibly cast) argument types and the result type, `none` standing for
the null type of the not-a-function early return. -/
inductive CallResult where
  | fatal
  | ok (argTypes : List Ty) (retType : Option Ty)

/-- The argument loop of `promotion::call` (src/expr/promotion.cpp lines
45-57): positional arguments are cast to the parameter type; extra varg
arguments of array type decay to a pointer to the element, others pass
unchanged. -/
def castCallArgs (params : List Ty) (args : List Ty) : List Ty :=
  args.mapIdx fun i a =>
    match params[i]? with
    | some p => p
    | none =>
      match a with
      | .array r _ => .pointer r false
      | _ => a

/-- `promotion::call` (src/expr/promotion.cpp lines 16-62) at the level
of types.  `locGiven` models whether the `lexer::Loc *loc` argument is
non-null; diagnostics themselves are not modelled. -/
def promotionCall (fnType : Ty) (args : List Ty) (locGiven : Bool) : CallResult :=
  if !fnType.isFunction then
    if locGiven then .fatal else .ok args none
  else if locGiven && args.length < fnType.paramType.length then
    .fatal
  else if locGiven && !fnType.hasVarg && args.length > fnType.paramType.length then
    .fatal
  else
    .ok (castCallArgs fnType.paramType args) fnType.retType

mutual

/-- Boolean structural identity of types.  The registries intern types so
that pointer identity coincides with structural identity; this is that
identity, decidably. -/
def tyBeq : Ty → Ty → Bool
  | .void c1, .void c2 => c1 == c2
  | .integer b1 s1 c1, .integer b2 s2 c2 => b1 == b2 && s1 == s2 && c1 == c2
  | .float d1 c1, .float d2 c2 => d1 == d2 && c1 == c2
  | .pointer r1 c1, .pointer r2 c2 => tyBeq r1 r2 && c1 == c2
  | .nullptrTy c1, .nullptrTy c2 => c1 == c2
  | .array r1 d1, .array r2 d2 => tyBeq r1 r2 && d1 == d2
  | .function r1 p1 v1 c1, .function r2 p2 v2 c2 =>
    tyBeq r1 r2 && tyBeqList p1 p2 && v1 == v2 && c1 == c2
  | .struct i1 c1, .struct i2 c2 => i1 == i2 && c1 == c2
  | _, _ => false

/-- Element-wise structural identity of type lists. -/
def tyBeqList : List Ty → List Ty → Bool
  | [], [] => true
  | x :: xs, y :: ys => tyBeq x y && tyBeqList xs ys
  | _, _ => false

end

/-- A `FunctionType` value as stored in the interning set `fnSet`
(src/type/functiontype.cpp line 23).  `name` is the base-class `UStr`
name; the printable `aka_` string is computed in the constructor (lines
31-40) from the parameter and return types, so it is a function of `ret`
and `params` and is not stored separately. -/
structure FnTy where
  ret : Ty
  params : List Ty
  varg : Bool
  constFlag : Bool
  name : String

/-- Set-equivalence under `operator<` on `FunctionType`
(src/type/functiontype.cpp lines 7-21): the comparison tuple is
(retType, ustr, aka, paramType, constFlag).  The `varg` flag is NOT part
of the tuple; the aka component is determined by `ret` and `params` and
is therefore dropped. -/
def fnKeyEq (x y : FnTy) : Bool :=
  tyBeq x.ret y.ret && x.name == y.name && tyBeqList x.params y.params
    && (x.constFlag == y.constFlag)

/-- `FunctionType::create` (src/type/functiontype.cpp lines 43-49):
`fnSet.insert` returns the already-interned element when one
set-equivalent to the candidate exists, and inserts the candidate
otherwise.  The set is modelled as the list of interned values together
with the returned element. -/
def fnCreate (fnSet : List FnTy) (ret : Ty) (params : List Ty)
    (varg constFlag : Bool) (name : String) : FnTy × List FnTy :=
  let cand : FnTy := ⟨ret, params, varg, constFlag, name⟩
  match fnSet.find? (fun g => fnKeyEq g cand) with
  | some g => (g, fnSet)
  | none => (cand, fnSet ++ [cand])

/-- The three-argument `FunctionType::create` overload (lines 51-56):
const flag false, empty alias name. -/
def fnCreateDefault (fnSet : List FnTy) (ret : Ty) (params : List Ty)
    (varg : Bool) : FnTy × List FnTy :=
  fnCreate fnSet ret params varg false ""

end Abc

namespace AbcOld

/-- Types of the older type system (src/src/type.cpp): the hidden
subclasses Integer (also representing void), Pointer, Array, Function and
Struct.  A null-pointer type stores no referenced type, hence the
`Option`.  Struct values carry their id; the const flavour of a struct is
the distinct value with the same id held in `constStructMap`. -/
inductive STy where
  | void
  | integer (numBits : Nat) (signedKind : Bool) (constFlag : Bool)
  | pointer (refType : Option STy) (isNullptr : Bool) (constFlag : Bool)
  | array (refType : STy) (dim : Nat)
  | function (retType : STy) (argType : List STy) (hasVarg : Bool)
  | structTy (id : Nat) (constFlag : Bool)

/-- `Type::getConst` (src/src/type.cpp lines 512-528): const flavour of a
type, `nullptr` (here `none`) for the unhandled kinds void and function.
For an array the element is constified; an array whose element has no
const flavour is mapped to `none` (the source would intern an array with
a null element type there). -/
def getConstS : STy → Option STy
  | .integer b k _ => some (.integer b k true)
  | .pointer r n _ => some (.pointer r n true)
  | .array r d =>
    match getConstS r with
    | some rc => some (.array rc d)
    | none => none
  | .structTy i _ => some (.structTy i true)
  | .void => none
  | .function _ _ _ => none

/-- `Type::StructData` (src/src/type.cpp lines 14-22 and type.hpp):
member names, member types and the name-to-index map, plus the completion
flag.  Member-type slots are `Option STy` because `getConst` yields null
for void/function member types when the const flavour is filled in. -/
structure StructData where
  id : Nat
  name : String
  isComplete : Bool
  constFlag : Bool
  ident : List String
  type : List (Option STy)
  index : List (String × Nat)

/-- One `structData.index[ident[i]] = i` assignment on the map: existing
keys are overwritten, new keys appended. -/
def mapSet (m : List (String × Nat)) (k : String) (v : Nat) :
    List (String × Nat) :=
  if m.any (fun p => p.1 == k) then
    m.map (fun p => if p.1 == k then (k, v) else p)
  else
    m ++ [(k, v)]

/-- The index-filling loop of `Type::complete` (src/src/type.cpp lines
394-396 and 407-409). -/
def buildIndex (ident : List String) : List (String × Nat) :=
  (List.zip ident (List.range ident.length)).foldl
    (fun m p => mapSet m p.1 p.2) []

/-- `Type::complete(ident, type)` for structs (src/src/type.cpp lines
378-413).  `sd` is the struct's own `StructData`, `csd` the entry for the
same id in `constStructMap`, completed in lock-step with member types
constified.  On an already-complete struct the source returns nullptr
(here `none`) before touching any state.  The
`assert(ident.size() == type.size())` is a runtime check only. -/
def completeStruct (sd csd : StructData) (ident : List String)
    (type : List STy) : Option Unit × StructData × StructData :=
  if sd.isComplete then
    (none, sd, csd)
  else
    ( some ()
    , { sd with
        isComplete := true
        ident := ident
        type := type.map some
        index := buildIndex ident }
    , { csd with
        isComplete := true
        ident := ident
        type := type.map getConstS
        index := buildIndex ident } )

/-- Operations the code generator receives during conditional-branch
emission: label definitions (`gen::labelDef`), evaluation of a
non-logical condition (its `gen::cond` computation) and the two-target
jump `gen::jmp(cond, trueLabel, falseLabel)`. -/
inductive GenOp where
  | labelDef (l : Nat)
  | evalCond (id : Nat)
  | condBr (t f : Nat)

/-- Code-generation state: the counter behind `gen::getLabel` and the
instruction trace emitted so far. -/
structure GenState where
  next : Nat
  trace : List GenOp

/-- The shape of an expression as seen by `condJmp`
(src/src/binaryexpr.cpp lines 175-219): `atom` covers the comparison
kinds and the default case — both evaluate a condition and emit a single
two-target jump — while the logical kinds recurse into their operands. -/
inductive CondExpr where
  | atom (id : Nat)
  | logicalAnd (l r : CondExpr)
  | logicalOr (l r : CondExpr)

/-- `BinaryExpr::condJmp` (src/src/binaryexpr.cpp lines 175-219).
For `LOGICAL_AND` a fresh `chkRight` label is allocated; the left operand
branches to it on true and to `falseLabel` on false, the label is
defined, then the right operand branches to the final pair.
`LOGICAL_OR` mirrors this with the true path short-circuiting. -/
def condJmp : CondExpr → Nat → Nat → GenState → GenState
  | .atom i, t, f, s =>
    { s with trace := s.trace ++ [.evalCond i, .condBr t f] }
  | .logicalAnd l r, t, f, s =>
    let chk := s.next
    let s1 := condJmp l chk f { s with next := s.next + 1 }
    let s2 := { s1 with trace := s1.trace ++ [.labelDef chk] }
    condJmp r t f s2
  | .logicalOr l r, t, f, s =>
    let chk := s.next
    let s1 := condJmp l t chk { s with next := s.next + 1 }
    let s2 := { s1 with trace := s1.trace ++ [.labelDef chk] }
    condJmp r t f s2

/-- All labels that some branch instruction of the trace targets. -/
def branchTargets : List GenOp → List Nat
  | [] => []
  | .condBr t f :: rest => t :: f :: branchTargets rest
  | _ :: rest => branchTargets rest

/-- The label counter produced by `condJmp`, as a function of the input
counter (one fresh `chkRight` label per logical node). -/
def emitNext : CondExpr → Nat → Nat
  | .atom _, n => n
  | .logicalAnd l r, n => emitNext r (emitNext l (n + 1))
  | .logicalOr l r, n => emitNext r (emitNext l (n + 1))

/-- The instructions `condJmp` appends to the trace, as a function of the
targets and the input label counter. -/
def emitTrace : CondExpr → Nat → Nat → Nat → List GenOp
  | .atom i, t, f, _ => [.evalCond i, .condBr t f]
  | .logicalAnd l r, t, f, n =>
    emitTrace l n f (n + 1) ++ [.labelDef n]
      ++ emitTrace r t f (emitNext l (n + 1))
  | .logicalOr l r, t, f, n =>
    emitTrace l t n (n + 1) ++ [.labelDef n]
      ++ emitTrace r t f (emitNext l (n + 1))

/-- `BinaryExpr::Kind` as used in src/src/binaryexpr.cpp (the richer
enumeration including CALL and MEMBER, spec §9 note 1). -/
inductive BinKind where
  | CALL | ADD | ASSIGN | EQUAL | NOT_EQUAL | GREATER | GREATER_EQUAL
  | LESS | LESS_EQUAL | LOGICAL_AND | LOGICAL_OR | SUB | MUL | DIV | MOD
  | MEMBER
deriving DecidableEq

/-- Expressions for the `hasAddr` / `isLValue` queries: the three node
kinds whose sources are present (BinaryExpr, CastExpr, ProxyExpr) over
abstract leaves standing for the remaining variants (identifier, literal,
unary, ...), each leaf carrying its own two query answers. -/
inductive XExpr where
  | leaf (addr lval : Bool)
  | binary (kind : BinKind) (left right : XExpr)
  | cast (child : XExpr)
  | proxy (target : XExpr)

/-- `isLValue`: `BinaryExpr::isLValue` (src/src/binaryexpr.cpp lines
36-40) — a MEMBER node whose right operand is an lvalue;
`CastExpr::isLValue` (castexpr.cpp lines 32-36) — false;
`ProxyExpr::isLValue` (proxyexpr.cpp lines 24-28) — the target's. -/
def isLValue : XExpr → Bool
  | .leaf _ l => l
  | .binary k _ r => k == .MEMBER && isLValue r
  | .cast _ => false
  | .proxy t => isLValue t

/-- `hasAddr`: `BinaryExpr::hasAddr` (src/src/binaryexpr.cpp lines 30-34)
— defined as `isLValue()`; `CastExpr::hasAddr` (castexpr.cpp lines 26-30)
— false; `ProxyExpr::hasAddr` (proxyexpr.cpp lines 18-22) — the
target's. -/
def hasAddr : XExpr → Bool
  | .leaf a _ => a
  | .binary k l r => isLValue (.binary k l r)
  | .cast _ => false
  | .proxy t => hasAddr t

/-- Does every abstract leaf of the expression satisfy the invariant
`is_lvalue ⇒ has_address`?  (Per spec §4.3/§8 the node kinds not among
the sources do.) -/
def leavesOK : XExpr → Bool
  | .leaf a l => !l || a
  | .binary _ l r => leavesOK l && leavesOK r
  | .cast c => leavesOK c
  | .proxy t => leavesOK t

/-- Symbolic run-time values produced by the value channels: integer
constants and ALU results (`gen::aluInstr`). -/
inductive GVal where
  | constInt (v : Nat)
  | alu (k : BinKind) (a b : GVal)
deriving DecidableEq

/-- Expressions for the two load channels: literal leaves (constant on
both channels; their sources are not in src/, modelled from the spec
§4.3), arithmetic BinaryExpr nodes, and ProxyExpr nodes. -/
inductive VExpr where
  | lit (v : Nat)
  | binArith (k : BinKind) (l r : VExpr)
  | proxy (target : VExpr)

/-- The compile-time-constant channel.  `BinaryExpr::loadConstValue`
(src/src/binaryexpr.cpp lines 76-81) is `assert(0); return nullptr` —
modelled as `none`; `ProxyExpr::loadConstValue` (proxyexpr.cpp lines
37-41) delegates to the target's constant channel. -/
def loadConstValue : VExpr → Option GVal
  | .lit v => some (.constInt v)
  | .binArith _ _ _ => none
  | .proxy t => loadConstValue t

/-- The run-time value channel.  For an arithmetic BinaryExpr the integer
branch of `BinaryExpr::loadValue` (src/src/binaryexpr.cpp lines 98-122)
emits `gen::aluInstr(op, left->loadValue(), right->loadValue())`,
modelled symbolically.  `ProxyExpr::loadValue` (proxyexpr.cpp lines
43-47) reads `return expr->loadConstValue();` — the CONSTANT channel of
the target, not its value channel; the model reproduces that. -/
def loadValue : VExpr → Option GVal
  | .lit v => some (.constInt v)
  | .binArith k l r => do
    let a ← loadValue l
    let b ← loadValue r
    some (.alu k a b)
  | .proxy t => loadConstValue t

end AbcOld

/-! ## Theorems -/

namespace Abc

mutual

/-- `Type::equals` is reflexive. -/
theorem equals_refl : ∀ t : Ty, equals t t = true
  | .void _ => by simp [equals, Ty.hasConstFlag]
  | .integer _ _ _ => by simp [equals, Ty.hasConstFlag]
  | .float d _ => by cases d <;> simp [equals, Ty.hasConstFlag]
  | .pointer r _ => by simp [equals, Ty.hasConstFlag, equals_refl r]
  | .nullptrTy _ => by simp [equals, Ty.hasConstFlag]
  | .array r _ => by simp [equals, Ty.hasConstFlag, equals_refl r]
  | .function r ps _ _ => by
    simp [equals, Ty.hasConstFlag, equals_refl r, equalsList_refl ps]
  | .struct _ _ => by simp [equals, Ty.hasConstFlag]

/-- Parameter-list equality is reflexive. -/
theorem equalsList_refl : ∀ l : List Ty, equalsList l l = true
  | [] => rfl
  | x :: xs => by simp [equalsList, equals_refl x, equalsList_refl xs]

end

/-- Removing the const flag is the identity on a type that does not carry
it. -/
theorem getConstRemoved_eq_self :
    ∀ t : Ty, t.hasConstFlag = false → t.getConstRemoved = t
  | .void c, h => by
    simp [Ty.hasConstFlag] at h
    simp [Ty.getConstRemoved, h]
  | .integer _ _ c, h => by
    simp [Ty.hasConstFlag] at h
    simp [Ty.getConstRemoved, h]
  | .float _ c, h => by
    simp [Ty.hasConstFlag] at h
    simp [Ty.getConstRemoved, h]
  | .pointer _ c, h => by
    simp [Ty.hasConstFlag] at h
    simp [Ty.getConstRemoved, h]
  | .nullptrTy c, h => by
    simp [Ty.hasConstFlag] at h
    simp [Ty.getConstRemoved, h]
  | .array r _, h => by
    simp [Ty.hasConstFlag] at h
    simp [Ty.getConstRemoved, getConstRemoved_eq_self r h]
  | .function _ _ _ c, h => by
    simp [Ty.hasConstFlag] at h
    simp [Ty.getConstRemoved, h]
  | .struct _ c, h => by
    simp [Ty.hasConstFlag] at h
    simp [Ty.getConstRemoved, h]

/-- C1.  The claim reads: if `equals(const_removed(a), const_removed(b))`
then `common(a, b)` returns `a`, const-promoted when either side is
const.  The source computes the const flavour at src/type/type.cpp lines
99-101 but discards it, so for `a = i32` and `b = const i32` the result
is plain `i32` without the const flag even though `b` carries it. -/
theorem common_const_promotion_discarded :
    Ty.common (.integer 32 true false) (.integer 32 true true)
      = some (.integer 32 true false)
    ∧ (Ty.integer 32 true true).hasConstFlag = true
    ∧ (Ty.common (.integer 32 true false) (.integer 32 true true)).map
        Ty.hasConstFlag = some false := by
  refine ⟨?_, rfl, ?_⟩ <;>
    simp [Ty.common, equals, Ty.getConstRemoved, Ty.hasConstFlag,
      Ty.isInteger, Ty.isFloatType]

/-- C3, counterexample.  The claim reads `convert(T, T) = T` for every
`T`, including const `T`; but `Type::convert` returns the const-removed
target (src/type/type.cpp lines 121-124), so at `T = const i32` it
returns `i32`, a different type value. -/
theorem convert_identity_const_counterexample :
    Ty.convert (.integer 32 true true) (.integer 32 true true)
      = some (.integer 32 true false)
    ∧ some (Ty.integer 32 true false) ≠ some (Ty.integer 32 true true) := by
  constructor
  · rw [Ty.convert, convert]
    simp [equals, Ty.getConstRemoved, Ty.hasConstFlag]
  · simp

/-- C3, amended.  `convert(T, T)` is always accepted and returns the
const-removed flavour of `T`; in particular it returns `T` itself exactly
when `T` does not carry the const flag. -/
theorem convert_identity_modulo_const (t : Ty) :
    Ty.convert t t = some t.getConstRemoved
    ∧ (t.hasConstFlag = false → Ty.convert t t = some t) := by
  have h : Ty.convert t t = some t.getConstRemoved := by
    rw [Ty.convert, convert]
    simp [equals_refl]
  exact ⟨h, fun hc => by rw [h, getConstRemoved_eq_self t hc]⟩

/-- C3, witness: the amended theorem applied at `T = u8`. -/
theorem convert_identity_modulo_const_witness :
    Ty.convert (.integer 8 false false) (.integer 8 false false)
      = some (.integer 8 false false) :=
  (convert_identity_modulo_const (.integer 8 false false)).2 rfl

/-- C2.  The claim reads: registry constructions return the same value
iff structurally equal; in particular two function types differing only
in the varg flag are distinct.  But the interning order of
`FunctionType` (src/type/functiontype.cpp lines 7-21) omits `varg` from
its comparison tuple: constructing `fn(): void` and then the varg
flavour of the same signature returns the SAME interned value — with
`varg = false` — although `Type::equals` (src/type/type.cpp lines 48-50)
distinguishes the two structures. -/
theorem functionType_interning_conflates_varg :
    (fnCreateDefault ((fnCreateDefault [] (.void false) [] false).2)
        (.void false) [] true).1
      = (fnCreateDefault [] (.void false) [] false).1
    ∧ (fnCreateDefault ((fnCreateDefault [] (.void false) [] false).2)
        (.void false) [] true).1.varg = false
    ∧ equals (Ty.function (.void false) [] true false)
        (Ty.function (.void false) [] false false) = false := by
  refine ⟨?_, ?_, ?_⟩ <;>
    simp [fnCreateDefault, fnCreate, fnKeyEq, tyBeq, tyBeqList, List.find?,
      equals, equalsList, Ty.hasConstFlag]

/-- C4, counterexample.  The claim reads: with no location supplied, an
argument count below the parameter count yields a none result type.  But
the arity checks of `promotion::call` (src/expr/promotion.cpp lines
31-43) only emit diagnostics when a location is present and fall through
otherwise: calling a `fn(i32): void` with zero arguments speculatively
yields the function's return type, not none. -/
theorem call_arity_speculative_counterexample :
    promotionCall (.function (.void false) [.integer 32 true false] false false)
      [] false = .ok [] (some (.void false))
    ∧ CallResult.ok ([] : List Ty) (some (.void false))
        ≠ CallResult.ok [] none := by
  refine ⟨rfl, ?_⟩
  intro h
  simp at h

/-- C4, amended.  A speculative call (no location) never exits fatally,
and its result type is none exactly when the callee's type is not a
function type; arity mismatches pass undiagnosed and resolve to the
callee's return type. -/
theorem call_speculative_none_iff_not_function (fnType : Ty) (args : List Ty) :
    promotionCall fnType args false ≠ CallResult.fatal
    ∧ ((∃ res, promotionCall fnType args false = .ok res none)
        ↔ fnType.isFunction = false) := by
  cases fnType <;>
    simp [promotionCall, Ty.isFunction, Ty.retType, Ty.paramType, Ty.hasVarg]

/-- C4, witness: the amended theorem applied to a void-typed callee. -/
theorem call_speculative_none_iff_not_function_witness :
    ((∃ res, promotionCall (.void false) [] false = .ok res none)
      ↔ (Ty.void false).isFunction = false) :=
  (call_speculative_none_iff_not_function (.void false) []).2

/-- C5, counterexample.  The claim reads: unary minus on a float child
yields that same float type.  But the MINUS case of `promotion::unary`
(src/expr/promotion.cpp lines 423-427) only accepts integer children, so
a float child takes the `unaryErr` path (none result type). -/
theorem unary_minus_float_counterexample :
    unary .MINUS ⟨.float false false, false, false⟩ = none
    ∧ (Ty.float false false).isFloatType = true
    ∧ (none : Option (PExpr × Ty))
        ≠ some (implicitCast ⟨.float false false, false, false⟩
                  (.float false false), .float false false) := by
  refine ⟨rfl, rfl, ?_⟩
  intro h
  simp at h

/-- C5, amended.  Unary minus: an integer child keeps its own type (after
an identity implicit cast); every other child type — floats included —
is an error (none result). -/
theorem unary_minus_integer_only (c : PExpr) :
    unary UnaryKind.MINUS c
      = if c.type.isInteger then some (implicitCast c c.type, c.type)
        else none := by
  cases h : c.type.isInteger <;> simp [unary, h]

/-- C5, witness for the amended theorem: a signed 32-bit integer child
keeps its type under unary minus. -/
theorem unary_minus_integer_only_witness :
    unary UnaryKind.MINUS ⟨.integer 32 true false, true, true⟩
      = some (implicitCast ⟨.integer 32 true false, true, true⟩
                (.integer 32 true false), .integer 32 true false) := by
  have h := unary_minus_integer_only ⟨.integer 32 true false, true, true⟩
  simpa [Ty.isInteger] using h

/-- C7.  For integer types unequal after const removal, `Type::common`
(src/type/type.cpp lines 87-93) yields the integer type of the larger
bit width, unsigned as soon as one side is unsigned; and `binaryInt`
(src/expr/promotion.cpp lines 140-146) gives every arithmetic operator
that common type, casting both operands to it. -/
theorem integer_common_arith_promotion
    (ab bb : Nat) (sa sb ca cb lv la rv ra : Bool)
    (h : equals (Ty.integer ab sa ca).getConstRemoved
          (Ty.integer bb sb cb).getConstRemoved = false) :
    Ty.common (.integer ab sa ca) (.integer bb sb cb)
      = some (.integer (max ab bb) (sa && sb) false)
    ∧ ∀ k : BinaryKind,
        (k = .ADD ∨ k = .SUB ∨ k = .MUL ∨ k = .DIV ∨ k = .MOD) →
        binaryInt k ⟨.integer ab sa ca, lv, la⟩ ⟨.integer bb sb cb, rv, ra⟩
          = some (⟨.integer (max ab bb) (sa && sb) false, false, false⟩,
                  ⟨.integer (max ab bb) (sa && sb) false, false, false⟩,
                  .integer (max ab bb) (sa && sb) false) := by
  have hc : Ty.common (.integer ab sa ca) (.integer bb sb cb)
      = some (.integer (max ab bb) (sa && sb) false) := by
    cases sa <;> cases sb <;>
      simp [Ty.common, h, Ty.isInteger, Ty.isFloatType, Ty.isArray,
        Ty.isUnsignedInteger, Ty.numBits, Ty.isPointer, Ty.isNullptr]
  refine ⟨hc, ?_⟩
  intro k hk
  rcases hk with h1 | h1 | h1 | h1 | h1 <;> subst h1 <;>
    simp [binaryInt, hc, implicitCast]

/-- C7, witness: the spec's own scenario — `i32 + u16` promotes both
operands to `u32` and the sum has type `u32`. -/
theorem integer_common_arith_promotion_witness :
    Ty.common (.integer 32 true false) (.integer 16 false false)
      = some (.integer 32 false false)
    ∧ binaryInt .ADD ⟨.integer 32 true false, false, false⟩
        ⟨.integer 16 false false, false, false⟩
      = some (⟨.integer 32 false false, false, false⟩,
              ⟨.integer 32 false false, false, false⟩,
              .integer 32 false false) := by
  have h := integer_common_arith_promotion 32 16 true false false false
    false false false false
    (by simp [equals, Ty.getConstRemoved, Ty.hasConstFlag])
  exact ⟨h.1, h.2 .ADD (Or.inl rfl)⟩

end Abc

namespace AbcOld

/-- C6.  Completing an incomplete struct succeeds and installs the member
table; every later completion attempt returns none and leaves both the
plain and the const entry exactly as they were. -/
theorem struct_complete_once (sd csd : StructData) (ident : List String)
    (type : List STy) (h : sd.isComplete = false) :
    (completeStruct sd csd ident type).1 = some ()
    ∧ (completeStruct sd csd ident type).2.1.isComplete = true
    ∧ (completeStruct sd csd ident type).2.1.ident = ident
    ∧ (completeStruct sd csd ident type).2.1.type = type.map some
    ∧ (completeStruct sd csd ident type).2.1.index = buildIndex ident
    ∧ ∀ (ident2 : List String) (type2 : List STy),
        completeStruct (completeStruct sd csd ident type).2.1
            (completeStruct sd csd ident type).2.2 ident2 type2
          = (none, (completeStruct sd csd ident type).2.1,
              (completeStruct sd csd ident type).2.2) := by
  simp [completeStruct, h]

/-- C6, witness: completing a fresh struct with one member `x : i32` and
then attempting a second completion. -/
theorem struct_complete_once_witness :
    (completeStruct ⟨0, "S", false, false, [], [], []⟩
        ⟨0, "S", false, true, [], [], []⟩ ["x"] [.integer 32 true false]).1
      = some ()
    ∧ completeStruct
        (completeStruct ⟨0, "S", false, false, [], [], []⟩
          ⟨0, "S", false, true, [], [], []⟩ ["x"] [.integer 32 true false]).2.1
        (completeStruct ⟨0, "S", false, false, [], [], []⟩
          ⟨0, "S", false, true, [], [], []⟩ ["x"] [.integer 32 true false]).2.2
        ["y"] []
      = (none,
          (completeStruct ⟨0, "S", false, false, [], [], []⟩
            ⟨0, "S", false, true, [], [], []⟩ ["x"] [.integer 32 true false]).2.1,
          (completeStruct ⟨0, "S", false, false, [], [], []⟩
            ⟨0, "S", false, true, [], [], []⟩ ["x"] [.integer 32 true false]).2.2) := by
  have h := struct_complete_once ⟨0, "S", false, false, [], [], []⟩
    ⟨0, "S", false, true, [], [], []⟩ ["x"] [.integer 32 true false] rfl
  exact ⟨h.1, h.2.2.2.2.2 ["y"] []⟩

/-- `condJmp` threads state: it advances the counter by `emitNext` and
appends `emitTrace` to the incoming trace. -/
theorem condJmp_eq_emit (e : CondExpr) :
    ∀ (t f : Nat) (s : GenState),
      condJmp e t f s = ⟨emitNext e s.next, s.trace ++ emitTrace e t f s.next⟩ := by
  induction e with
  | atom i => intro t f s; simp [condJmp, emitNext, emitTrace]
  | logicalAnd l r ihl ihr =>
    intro t f s
    simp only [condJmp]
    rw [ihl, ihr]
    simp [emitNext, emitTrace]
  | logicalOr l r ihl ihr =>
    intro t f s
    simp only [condJmp]
    rw [ihl, ihr]
    simp [emitNext, emitTrace]

/-- Label generation only counts up. -/
theorem emitNext_mono (e : CondExpr) : ∀ n, n ≤ emitNext e n := by
  induction e with
  | atom i => intro n; simp [emitNext]
  | logicalAnd l r ihl ihr =>
    intro n
    have h1 := ihl (n + 1)
    have h2 := ihr (emitNext l (n + 1))
    simp only [emitNext]
    omega
  | logicalOr l r ihl ihr =>
    intro n
    have h1 := ihl (n + 1)
    have h2 := ihr (emitNext l (n + 1))
    simp only [emitNext]
    omega

/-- Branch targets distribute over trace concatenation. -/
theorem branchTargets_append (a b : List GenOp) :
    branchTargets (a ++ b) = branchTargets a ++ branchTargets b := by
  induction a with
  | nil => rfl
  | cons op rest ih => cases op <;> simp [branchTargets, ih]

/-- Every branch in the code emitted for a condition targets one of the
two given labels or a label allocated during that emission. -/
theorem emitTrace_targets (e : CondExpr) :
    ∀ (t f n x : Nat), x ∈ branchTargets (emitTrace e t f n) →
      x = t ∨ x = f ∨ n ≤ x := by
  induction e with
  | atom i =>
    intro t f n x h
    simp [emitTrace, branchTargets] at h
    tauto
  | logicalAnd l r ihl ihr =>
    intro t f n x h
    simp [emitTrace, branchTargets_append, branchTargets] at h
    have hm := emitNext_mono l (n + 1)
    rcases h with h | h
    · rcases ihl n f (n + 1) x h with h1 | h1 | h1 <;> omega
    · rcases ihr t f (emitNext l (n + 1)) x h with h1 | h1 | h1
      · exact Or.inl h1
      · exact Or.inr (Or.inl h1)
      · omega
  | logicalOr l r ihl ihr =>
    intro t f n x h
    simp [emitTrace, branchTargets_append, branchTargets] at h
    have hm := emitNext_mono l (n + 1)
    rcases h with h | h
    · rcases ihl t n (n + 1) x h with h1 | h1 | h1
      · exact Or.inl h1
      · omega
      · omega
    · rcases ihr t f (emitNext l (n + 1)) x h with h1 | h1 | h1
      · exact Or.inl h1
      · exact Or.inr (Or.inl h1)
      · omega

/-- C8.  For `logical_and`, `condJmp` first emits the left operand's
branch code with the fresh intermediate label as true target and the
final `falseLabel` as false target, then defines the intermediate label,
then emits the right operand's branch code toward the final pair; and
when the final labels predate the emission, no branch of the left
segment targets `trueLabel` — no path reaches the true continuation
without the right operand having been evaluated after the left. -/
theorem logical_and_condjmp_structure (l r : CondExpr) (T F : Nat)
    (s : GenState) (hT : T < s.next) (hTF : T ≠ F) :
    (condJmp (.logicalAnd l r) T F s).trace
      = s.trace
        ++ (condJmp l s.next F ⟨s.next + 1, []⟩).trace
        ++ [GenOp.labelDef s.next]
        ++ (condJmp r T F
             ⟨(condJmp l s.next F ⟨s.next + 1, []⟩).next, []⟩).trace
    ∧ T ∉ branchTargets (condJmp l s.next F ⟨s.next + 1, []⟩).trace := by
  have hL := condJmp_eq_emit l s.next F ⟨s.next + 1, []⟩
  constructor
  · rw [condJmp_eq_emit, hL]
    simp [condJmp_eq_emit, emitTrace]
  · rw [hL]
    intro hmem
    simp only [List.nil_append] at hmem
    rcases emitTrace_targets l s.next F (s.next + 1) T hmem with h | h | h
    · omega
    · exact hTF h
    · omega

/-- C8, witness: `a && b` over two atomic conditions, emitted at a state
whose labels 0 (true) and 1 (false) already exist. -/
theorem logical_and_condjmp_structure_witness :
    (condJmp (.logicalAnd (.atom 0) (.atom 1)) 0 1 ⟨2, []⟩).trace
      = ([] : List GenOp)
        ++ (condJmp (.atom 0) 2 1 ⟨3, []⟩).trace
        ++ [GenOp.labelDef 2]
        ++ (condJmp (.atom 1) 0 1
             ⟨(condJmp (.atom 0) 2 1 ⟨3, []⟩).next, []⟩).trace
    ∧ 0 ∉ branchTargets (condJmp (.atom 0) 2 1 ⟨3, []⟩).trace :=
  logical_and_condjmp_structure (.atom 0) (.atom 1) 0 1 ⟨2, []⟩
    (by decide) (by decide)

/-- C9.  Over expressions built from the three node kinds whose sources
are present (BinaryExpr, CastExpr, ProxyExpr), if every abstract leaf
satisfies `is_lvalue ⇒ has_address` then so does the whole expression:
a binary node's `hasAddr` IS its `isLValue`, a cast is neither, and a
proxy delegates both to its target. -/
theorem lvalue_implies_hasAddr (e : XExpr) (h : leavesOK e = true) :
    isLValue e = true → hasAddr e = true := by
  induction e with
  | leaf a l =>
    intro hl
    cases a <;> cases l <;> simp_all [leavesOK, isLValue, hasAddr]
  | binary k lft r ihl ihr =>
    intro hl
    simpa [hasAddr] using hl
  | cast c ih =>
    intro hl
    simp [isLValue] at hl
  | proxy t ih =>
    intro hl
    simp [leavesOK] at h
    simp [isLValue] at hl
    simpa [hasAddr] using ih h hl

/-- C9, witness: a proxy of a MEMBER binary node over an lvalue leaf. -/
theorem lvalue_implies_hasAddr_witness :
    leavesOK (XExpr.proxy (.binary .MEMBER (.leaf false false) (.leaf true true)))
      = true
    ∧ isLValue (XExpr.proxy (.binary .MEMBER (.leaf false false) (.leaf true true)))
      = true
    ∧ hasAddr (XExpr.proxy (.binary .MEMBER (.leaf false false) (.leaf true true)))
      = true :=
  ⟨rfl, rfl, lvalue_implies_hasAddr _ rfl rfl⟩

/-- C10.  The claim reads: a proxy's `loadValue` equals its target's
`loadValue` for every target.  But `ProxyExpr::loadValue`
(src/src/proxyexpr.cpp lines 43-47) delegates to the target's
`loadConstValue`, which for any BinaryExpr is `assert(0)`: on the
non-constant target `1 + 2` the proxy's value channel fails while the
target's own value channel produces the add instruction. -/
theorem proxy_loadValue_uses_const_channel :
    loadValue (.proxy (.binArith .ADD (.lit 1) (.lit 2))) = none
    ∧ loadValue (.binArith .ADD (.lit 1) (.lit 2))
      = some (.alu .ADD (.constInt 1) (.constInt 2))
    ∧ loadConstValue (.binArith .ADD (.lit 1) (.lit 2)) = none :=
  ⟨rfl, rfl, rfl⟩

end AbcOld
